import Mathlib

/-!
Shallow embedding of the pz80 Z80 assembler / disassembler
(`src/pz80/asm.py`, `evaluator.py`, `directives.py`, `disasm.py`)
and proofs of the specification claims about it.

Python integers are modelled as `Int` (arbitrary precision), byte values as
`Nat`, Python lists as `List`, Python dicts as insertion-ordered association
lists, and fallible code as `Except String`.  The instruction table, the
reserved-word set and the character map live in `z80.py`, which is not part
of the sources; they are parameters of the embedding (see `AsmEnv`/`DisEnv`),
with a spec-modelled default reserved set.
-/

namespace PZ80

/-- `s.startswith(c)` for a single-character prefix (Python `str.startswith`). -/
def pyStartsWith (s : String) (c : Char) : Bool :=
  match s.data with
  | [] => false
  | c' :: _ => c' = c

/-- `s.endswith(c)` for a single-character suffix (Python `str.endswith`). -/
def pyEndsWith (s : String) (c : Char) : Bool :=
  match s.data.getLast? with
  | none => false
  | some c' => c' = c

/-- Python `needle in haystack` on strings (substring containment). -/
def strContainsSub (hay needle : String) : Bool :=
  go hay.data
where
  go : List Char → Bool
  | [] => needle.data.isEmpty
  | c :: t => needle.data.isPrefixOf (c :: t) || go t

def isHexDigit (c : Char) : Bool :=
  ('0' ≤ c ∧ c ≤ '9') ∨ ('a' ≤ c ∧ c ≤ 'f') ∨ ('A' ≤ c ∧ c ≤ 'F')

def isOctDigit (c : Char) : Bool := '0' ≤ c ∧ c ≤ '7'

def isBinDigit (c : Char) : Bool := c = '0' ∨ c = '1'

def isDecDigit (c : Char) : Bool := '0' ≤ c ∧ c ≤ '9'

def hexVal (c : Char) : Nat :=
  if '0' ≤ c ∧ c ≤ '9' then c.toNat - '0'.toNat
  else if 'a' ≤ c ∧ c ≤ 'f' then c.toNat - 'a'.toNat + 10
  else if 'A' ≤ c ∧ c ≤ 'F' then c.toNat - 'A'.toNat + 10
  else 0

/-- Digits of a literal in the given base, most significant first. -/
def digitsVal (base : Nat) : List Char → Nat
  | [] => 0
  | c :: t => hexVal c * base ^ t.length + digitsVal base t

/-- Parse the unsigned part of a Python base-0 integer literal
(`0x…`/`0o…`/`0b…` prefixes, or decimal with no leading zeros except an
all-zero string).  Underscore digit separators are not modelled (no claim
involves them). -/
def pyIntUnsigned : List Char → Option Nat
  | '0' :: b :: rest =>
    if (b = 'x' ∨ b = 'X') then
      if rest ≠ [] ∧ rest.all isHexDigit then some (digitsVal 16 rest) else none
    else if (b = 'o' ∨ b = 'O') then
      if rest ≠ [] ∧ rest.all isOctDigit then some (digitsVal 8 rest) else none
    else if (b = 'b' ∨ b = 'B') then
      if rest ≠ [] ∧ rest.all isBinDigit then some (digitsVal 2 rest) else none
    else
      -- base-0 decimal forbids leading zeros unless the literal is all zeros
      if (b :: rest).all (· = '0') then some 0 else none
  | ['0'] => some 0
  | c :: rest =>
    if isDecDigit c ∧ c ≠ '0' ∧ rest.all isDecDigit then
      some (digitsVal 10 (c :: rest))
    else none
  | [] => none

/-- Python `int(s, 0)`: optional sign, then a base-prefixed or decimal literal. -/
def pyIntCore : List Char → Option Int
  | '+' :: rest => (pyIntUnsigned rest).map (fun n => (n : Int))
  | '-' :: rest => (pyIntUnsigned rest).map (fun n => -(n : Int))
  | l => (pyIntUnsigned l).map (fun n => (n : Int))

/-- Python `int(s, 0)` on a token string; `none` models `ValueError`. -/
def pyInt (s : String) : Option Int := pyIntCore s.data

/-- Decode the body of a Python string literal: backslash escapes
`\n \t \\ \" \' \r \0`; an unrecognized escape keeps the backslash
(Python behaviour).  `\xHH` and friends are not modelled (no claim uses
them). `none` models a syntax error (stray closing quote, trailing
backslash). -/
def decodeEscapes (q : Char) : List Char → Option (List Char)
  | [] => some []
  | '\\' :: c :: rest =>
    let mapped : List Char :=
      if c = 'n' then ['\n']
      else if c = 't' then ['\t']
      else if c = '\\' then ['\\']
      else if c = '\'' then ['\'']
      else if c = '"' then ['"']
      else if c = 'r' then ['\r']
      else if c = '0' then [Char.ofNat 0]
      else ['\\', c]
    (decodeEscapes q rest).map (fun t => mapped ++ t)
  | ['\\'] => none
  | c :: rest =>
    if c = q then none  -- an unescaped quote may not appear inside the body
    else (decodeEscapes q rest).map (fun t => c :: t)

/-- `ast.literal_eval` on a quoted string token (both quotes included in the
token).  `none` models `ValueError`/`SyntaxError`. -/
def decodeStrLit (s : String) : Option String :=
  match s.data with
  | q :: rest =>
    if (q = '\'' ∨ q = '"') ∧ rest ≠ [] ∧ rest.getLast? = some q then
      (decodeEscapes q (rest.dropLast)).map (fun l => ⟨l⟩)
    else none
  | [] => none

/-- The value classes `ast.literal_eval` can produce that the directives
inspect: `int`, `str`, or anything else (`float`, tuples, …). -/
inductive PyVal where
  | int (n : Int)
  | str (s : String)
  deriving DecidableEq, Repr

/-- `ast.literal_eval` on a single token, restricted to the int/str cases the
assembler can meet; other literal classes (floats, …) and non-literals both
come out as `none` (both are fatal downstream, with different messages —
no claim distinguishes them). -/
def pyLiteralEval (s : String) : Option PyVal :=
  match s.data with
  | [] => none
  | c :: _ =>
    if c = '\'' ∨ c = '"' then (decodeStrLit s).map PyVal.str
    else (pyInt s).map PyVal.int

def hexDigitU (n : Nat) : Char :=
  if n < 10 then Char.ofNat ('0'.toNat + n) else Char.ofNat ('A'.toNat + n - 10)

/-- Python `f"{n:02X}"`. -/
def hex2 (n : Nat) : String :=
  ⟨[hexDigitU (n / 16 % 16), hexDigitU (n % 16)]⟩

/-- Python `f"{n:04X}"` (for the 16-bit values the disassembler prints). -/
def hex4 (n : Nat) : String :=
  ⟨[hexDigitU (n / 4096 % 16), hexDigitU (n / 256 % 16),
    hexDigitU (n / 16 % 16), hexDigitU (n % 16)]⟩

/-- Python `a & 0xFF` on an arbitrary integer (always `a mod 256`). -/
def and255 (a : Int) : Nat := (a.emod 256).toNat

/-- Python `a & 0xFFFF`. -/
def and65535 (a : Int) : Nat := (a.emod 65536).toNat

/-- Python `a >> 8` (arithmetic shift = floor division). -/
def shr8 (a : Int) : Int := a.fdiv 256

/-- Python `str.lower()` (ASCII; the sources only lowercase ASCII tokens). -/
def pyLower (s : String) : String := ⟨s.data.map Char.toLower⟩

/-- Python `str.upper()`. -/
def pyUpper (s : String) : String := ⟨s.data.map Char.toUpper⟩

/-- Insert into an insertion-ordered dict: replace the value of an existing
key in place, else append (Python `d[k] = v`). -/
def dictInsert (d : List (String × Int)) (k : String) (v : Int) : List (String × Int) :=
  match d with
  | [] => [(k, v)]
  | (k', v') :: t => if k' = k then (k, v) :: t else (k', v') :: dictInsert t k v

/-!
## ExpressionEvaluator (`evaluator.py`)

The recursive-descent evaluator.  The Python object's cursor `self.idx` is
passed explicitly; the unbounded mutual recursion is made structural with a
fuel argument (`evaluate` supplies more fuel than any parse of its token
list can consume, so the fuel-exhaustion branch is unreachable there).
-/

structure EvalCtx where
  tokens : List String
  /-- `label_map`: `some` in pass-2 mode, `none` in pass-1 mode. -/
  labelMap : Option (List (String × Int))
  line : Nat
  /-- `cpu.reserved` (from the absent `z80.py`; a parameter here). -/
  reserved : List String
  /-- `defined_labels_pass1`. -/
  definedLabels : Option (List String)

/-- `ExpressionEvaluator._parse_char_literal`. -/
def parseCharLiteral (ctx : EvalCtx) (token : String) : Except String Int :=
  match decodeStrLit token with
  | none => .error ("Invalid character literal '" ++ token ++ "' on line " ++ toString ctx.line)
  | some v =>
    match v.data with
    | [c] => .ok (c.toNat : Int)
    | [c0, c1] => .ok (((c0.toNat * 256) ||| c1.toNat : Nat) : Int)
    | _ => .error "String literal in expression must be 1 or 2 characters"

/-- The atom case of `parse_factor` after `(`/`-`/`+` are ruled out:
char literal, integer literal, reserved check, then label resolution. -/
def parseAtom (ctx : EvalCtx) (token : String) (idx' : Nat) : Except String (Int × Nat) :=
  if (pyStartsWith token '\'' && pyEndsWith token '\'')
      || (pyStartsWith token '"' && pyEndsWith token '"') then
    (parseCharLiteral ctx token).map (fun v => (v, idx'))
  else
    match pyInt token with
    | some v => .ok (v, idx')
    | none =>
      if ctx.reserved.contains (pyLower token) then
        .error ("Reserved word '" ++ token ++ "' cannot be used in expression on line "
          ++ toString ctx.line)
      else
        match ctx.labelMap with
        | some lm =>
          match lm.lookup token with
          | some v => .ok (v, idx')
          | none => .error ("Undefined label or invalid term '" ++ token
              ++ "' in expression on line " ++ toString ctx.line)
        | none =>
          match ctx.definedLabels with
          | some dl =>
            if dl.contains token then .ok (0, idx')
            else .error ("Undefined symbol '" ++ token ++ "' in line " ++ toString ctx.line)
          | none => .ok (0, idx')

/-- A call into the recursive-descent parser: `parse_factor`,
`parse_mul_div` (entry and its `while` loop), `parse_add_sub` (entry and
its `while` loop).  The mutually recursive Python methods are merged into
one structurally recursive function over this tag so that concrete runs
reduce inside the kernel. -/
inductive ParseCall where
  | factor (idx : Nat)
  | mulDiv (idx : Nat)
  | mulDivLoop (val : Int) (idx : Nat)
  | addSub (idx : Nat)
  | addSubLoop (val : Int) (idx : Nat)

/-- The recursive-descent parser of `ExpressionEvaluator`; each Python call
or loop iteration consumes one unit of fuel. -/
def parseRun : Nat → EvalCtx → ParseCall → Except String (Int × Nat)
  | 0, _, _ => .error "fuel exhausted"
  | fuel + 1, ctx, call =>
    match call with
    | .factor idx =>
      -- `parse_factor`
      match ctx.tokens.get? idx with
      | none => .error ("Unexpected end of expression on line " ++ toString ctx.line)
      | some token =>
        if token = "(" then
          match parseRun fuel ctx (.addSub (idx + 1)) with
          | .error e => .error e
          | .ok (val, idx') =>
            if ctx.tokens.get? idx' = some ")" then .ok (val, idx' + 1)
            else .error ("Mismatched parentheses in expression on line " ++ toString ctx.line)
        else if token = "-" then
          (parseRun fuel ctx (.factor (idx + 1))).map (fun p => (-p.1, p.2))
        else if token = "+" then
          parseRun fuel ctx (.factor (idx + 1))
        else
          parseAtom ctx token (idx + 1)
    | .mulDiv idx =>
      -- `parse_mul_div`
      match parseRun fuel ctx (.factor idx) with
      | .error e => .error e
      | .ok (val, idx') => parseRun fuel ctx (.mulDivLoop val idx')
    | .mulDivLoop val idx =>
      -- `while self.peek() in ('*', '/')`
      let op := ctx.tokens.get? idx
      if op = some "*" ∨ op = some "/" then
        match parseRun fuel ctx (.factor (idx + 1)) with
        | .error e => .error e
        | .ok (rhs, idx') =>
          if op = some "*" then
            parseRun fuel ctx (.mulDivLoop (val * rhs) idx')
          else if rhs = 0 then
            .error ("Division by zero in expression on line " ++ toString ctx.line)
          else
            parseRun fuel ctx (.mulDivLoop (val.fdiv rhs) idx')
      else
        .ok (val, idx)
    | .addSub idx =>
      -- `parse_add_sub`
      match parseRun fuel ctx (.mulDiv idx) with
      | .error e => .error e
      | .ok (val, idx') => parseRun fuel ctx (.addSubLoop val idx')
    | .addSubLoop val idx =>
      -- `while self.peek() in ('+', '-')`
      let op := ctx.tokens.get? idx
      if op = some "+" ∨ op = some "-" then
        match parseRun fuel ctx (.mulDiv (idx + 1)) with
        | .error e => .error e
        | .ok (rhs, idx') =>
          if op = some "+" then parseRun fuel ctx (.addSubLoop (val + rhs) idx')
          else parseRun fuel ctx (.addSubLoop (val - rhs) idx')
      else
        .ok (val, idx)

/-- `ExpressionEvaluator.parse_factor`. -/
def parseFactor (fuel : Nat) (ctx : EvalCtx) (idx : Nat) : Except String (Int × Nat) :=
  parseRun fuel ctx (.factor idx)

/-- `ExpressionEvaluator.parse_mul_div`. -/
def parseMulDiv (fuel : Nat) (ctx : EvalCtx) (idx : Nat) : Except String (Int × Nat) :=
  parseRun fuel ctx (.mulDiv idx)

/-- `ExpressionEvaluator.parse_add_sub`. -/
def parseAddSub (fuel : Nat) (ctx : EvalCtx) (idx : Nat) : Except String (Int × Nat) :=
  parseRun fuel ctx (.addSub idx)

/-- Fuel that no parse of `n` tokens can exhaust: each consumed unit of fuel
either consumes a token or moves one step down the fixed
`add_sub → mul_div → factor` chain. -/
def evalFuel (n : Nat) : Nat := 8 * n + 8

/-- `ExpressionEvaluator.evaluate`: `ok none` for an empty token list,
otherwise the full parse, requiring all tokens consumed. -/
def evaluate (ctx : EvalCtx) : Except String (Option Int) :=
  if ctx.tokens = [] then .ok none
  else
    match parseAddSub (evalFuel ctx.tokens.length) ctx 0 with
    | .error e => .error e
    | .ok (val, idx) =>
      if idx ≠ ctx.tokens.length then
        .error ("Invalid expression syntax near '"
          ++ (match ctx.tokens.get? idx with | some t => t | none => "None")
          ++ "' on line " ++ toString ctx.line)
      else .ok (some val)

/-!
## DirectiveHandler (`directives.py`)
-/

/-- `DirectiveHandler.process_db_pass1`: walk the tokens after the mnemonic,
skipping commas; quoted tokens append their decoded characters, others must
be single integer-literal tokens in `[0, 255]`. -/
def processDbPass1 (line : Nat) (asmToks : List String) : Except String (List Nat) :=
  go (asmToks.drop 1)
where
  go : List String → Except String (List Nat)
  | [] => .ok []
  | operand :: rest =>
    if operand = "," then go rest
    else if pyStartsWith operand '"' || pyStartsWith operand '\'' then
      match decodeStrLit operand with
      | none => .error ("Invalid string literal in line " ++ toString line ++ ": " ++ operand)
      | some s => (go rest).map (fun bs => s.data.map Char.toNat ++ bs)
    else
      match pyInt operand with
      | none => .error ("Invalid operand for DB in line " ++ toString line ++ ": " ++ operand)
      | some value =>
        if ¬(0 ≤ value ∧ value ≤ 255) then
          .error ("DB value out of byte range (0-255) in line " ++ toString line
            ++ ": " ++ toString value)
        else (go rest).map (fun bs => value.toNat :: bs)

/-- `DirectiveHandler._split_operands`: split a token list on `,` into
operand token lists, dropping empty pieces. -/
def splitOperands (tokens : List String) : List (List String) :=
  go tokens []
where
  go : List String → List String → List (List String)
  | [], cur => if cur ≠ [] then [cur.reverse] else []
  | t :: rest, cur =>
    if t = "," then
      if cur ≠ [] then cur.reverse :: go rest [] else go rest []
    else go rest (t :: cur)

/-- `DirectiveHandler._encode_dw_literal`: a string of 1–2 characters or an
int in `[0, 65535]`, emitted little-endian. -/
def encodeDwLiteral (value : PyVal) (token : String) (line : Nat) : Except String (List Nat) :=
  match value with
  | .str v =>
    match v.data with
    | [c] => .ok [c.toNat % 256, c.toNat / 256 % 256]
    | [c0, c1] =>
      let val := (c0.toNat * 256) ||| c1.toNat
      .ok [val % 256, val / 256 % 256]
    | _ => .error ("String literal in DW must be 1 or 2 characters in line "
        ++ toString line ++ ": " ++ token)
  | .int n =>
    if ¬(0 ≤ n ∧ n ≤ 65535) then
      .error ("DW value out of word range (0-65535) in line " ++ toString line
        ++ ": " ++ toString n)
    else .ok [and255 n, and255 (shr8 n)]

/-- `DirectiveHandler.process_dw_pass1`: a single-token operand that parses
as a Python literal is encoded now; any other operand leaves a `00 00`
placeholder for pass-2. -/
def processDwPass1 (line : Nat) (asmToks : List String) : Except String (List Nat) :=
  go (splitOperands (asmToks.drop 1))
where
  go : List (List String) → Except String (List Nat)
  | [] => .ok []
  | operandToks :: rest =>
    match operandToks with
    | [token] =>
      match pyLiteralEval token with
      | some v =>
        match encodeDwLiteral v token line with
        | .error e => .error e
        | .ok bs => (go rest).map (fun more => bs ++ more)
      | none => (go rest).map (fun more => [0, 0] ++ more)
    | _ => (go rest).map (fun more => [0, 0] ++ more)

/-!
## Tokenizer (`Asm.tokenize`, `Asm.source`)
-/

/-- Match one string literal of the `_re_string_literal` regex starting at an
opening quote `q`: the body is a run of `\\.`-pairs and non-quote,
non-backslash characters, ended by the closing quote.  Returns the matched
characters (quotes included) and the remainder; `none` when no such literal
starts here (the regex engine then moves on by one character). -/
def matchStrLit (q : Char) : List Char → Option (List Char × List Char)
  | [] => none
  | '\\' :: c :: rest =>
    (matchStrLit q rest).map (fun p => ('\\' :: c :: p.1, p.2))
  | ['\\'] => none
  | c :: rest =>
    if c = q then some ([q], rest)
    else (matchStrLit q rest).map (fun p => (c :: p.1, p.2))

/-- The `_re_string_literal.sub(string_replacer, src)` pass: replace each
string literal with `__STRING_LITERAL_i__` and collect the literals. -/
def extractLits : Nat → List Char → Nat → (List Char × List String)
  | 0, l, _ => (l, [])
  | fuel + 1, l, n =>
    match l with
    | [] => ([], [])
    | c :: rest =>
      if c = '"' ∨ c = '\'' then
        match matchStrLit c rest with
        | some (body, rest') =>
          let ph := ("__STRING_LITERAL_" ++ toString n ++ "__").data
          let (tl, lits) := extractLits fuel rest' (n + 1)
          (ph ++ tl, String.mk (c :: body) :: lits)
        | none =>
          let (tl, lits) := extractLits fuel rest n
          (c :: tl, lits)
      else
        let (tl, lits) := extractLits fuel rest n
        (c :: tl, lits)

/-- Python `\s` whitespace. -/
def isPyWs (c : Char) : Bool :=
  c = ' ' ∨ c = '\t' ∨ c = '\n' ∨ c = '\r' ∨ c = '\x0b' ∨ c = '\x0c'

/-- `re.split(r"\s+", s)` (the empty pieces are filtered by the caller). -/
def splitWs (l : List Char) : List String :=
  go l []
where
  go : List Char → List Char → List String
  | [], cur => [String.mk cur.reverse]
  | c :: rest, cur =>
    if isPyWs c then String.mk cur.reverse :: go rest []
    else go rest (c :: cur)

/-- The `_re_placeholder.match(token)` prefix match
`__STRING_LITERAL_(\d+)__`, returning the captured index. -/
def placeholderIndex (tok : String) : Option Nat :=
  let pre := "__STRING_LITERAL_".data
  if pre.isPrefixOf tok.data then
    let rest := tok.data.drop pre.length
    let digits := rest.takeWhile isDecDigit
    let rest' := rest.drop digits.length
    if digits ≠ [] ∧ ("__".data).isPrefixOf rest' then some (digitsVal 10 digits)
    else none
  else none

/-- `Asm.tokenize`: lift string literals out, strip the `;` comment, pad the
punctuation `( ) : , + - * /` with spaces, split on whitespace, and restore
the literals. -/
def tokenize (src : String) : List String :=
  let (replaced, strings) := extractLits (src.data.length + 1) src.data 0
  let noComment := replaced.takeWhile (· ≠ ';')
  let padded := noComment.flatMap (fun c =>
    if ("():,+-*/".data).contains c then [' ', c, ' '] else [c])
  let ws := (splitWs padded).filter (· ≠ "")
  ws.map (fun token =>
    match placeholderIndex token with
    | some i =>
      match strings.get? i with
      | some s => s
      | none => token  -- Python raises IndexError here; only reachable when
                       -- the source text itself spells a placeholder
    | none => token)

structure SrcLine where
  line : Nat
  asm : List String
  deriving DecidableEq, Repr

/-- `Asm.source`: tokenize each line, keep the non-empty ones with 1-based
line numbers. -/
def sourceLines (lines : List String) : List SrcLine :=
  go 0 lines
where
  go : Nat → List String → List SrcLine
  | _, [] => []
  | p, l :: rest =>
    let lst := tokenize l
    if lst ≠ [] then ⟨p + 1, lst⟩ :: go (p + 1) rest else go (p + 1) rest

/-!
## Assembler data model (`asm.py`)
-/

/-- A `labelmap` entry's value: the literal token string for `EQU` entries,
an integer placeholder for label entries. -/
inductive LabelVal where
  | s (v : String)
  | i (v : Int)
  deriving DecidableEq, Repr

structure LabelEntry where
  ltype : String
  symbol : String
  value : LabelVal
  deriving DecidableEq, Repr

/-- An operand record produced by `_parse_operands`:
`{"value": …, "location": …, "length": …}`. -/
structure OperandRec where
  value : Option Int
  location : Nat
  length : Nat
  deriving DecidableEq, Repr

structure Fixup where
  offset : Nat
  size : Nat
  ftype : String
  src : OperandRec
  deriving DecidableEq, Repr

/-- One entry of the pass-0/pass-1 line list (the Python dicts with keys
`line`, `asm` or `label`, `base`, `offset`, `opcode`, `fixups`). -/
structure Item where
  line : Nat
  asm : Option (List String) := none
  label : Option String := none
  base : Int := 0
  offset : Nat := 0
  opcode : Option (List Nat) := none
  fixups : List Fixup := []
  deriving DecidableEq, Repr

/-- An instruction-table descriptor (`z80.py`, absent from the sources).
Python distinguishes the variants by key presence; here `rel`/`jmp` are
flags and `ext`/`otype` options. -/
structure InstrDesc where
  code : List Nat
  bytes : Nat := 0
  asmT : List String := []
  rel : Bool := false
  jmp : Bool := false
  ext : Option Nat := none
  otype : Option String := none

/-- The assembler's environment: the reserved-word set and the
mnemonic-keyed instruction table, both owned by the absent `z80.py` and
therefore parameters of the embedding. -/
structure AsmEnv where
  reserved : List String
  asmMap : List String → Option InstrDesc

/-- Modelled from the spec: `ReservedSet` — "The closed set of Z80 register
names, condition codes, and mnemonics" (`z80.py` is not among the sources).
Only membership of ordinary user symbols (`VAL`, `LABEL`, …, which are
certainly not Z80 register/condition/mnemonic names) and of the directive
words `org`/`db`/`dw`/`equ` (certainly not reserved, or the test suite's
directive lines would all fail pass-0) matters to the claims below. -/
def specReserved : List String :=
  ["a", "b", "c", "d", "e", "h", "l", "f", "i", "r",
   "af", "bc", "de", "hl", "sp", "pc", "ix", "iy",
   "ixh", "ixl", "iyh", "iyl",
   "nz", "z", "nc", "po", "pe", "p", "m",
   "nop", "ld", "inc", "dec", "add", "adc", "sub", "sbc", "and", "or", "xor",
   "cp", "jp", "jr", "djnz", "call", "ret", "reti", "retn", "rst",
   "push", "pop", "ex", "exx", "ldi", "ldir", "ldd", "lddr",
   "cpi", "cpir", "cpd", "cpdr", "daa", "cpl", "neg", "ccf", "scf",
   "halt", "di", "ei", "im", "rlca", "rla", "rrca", "rra",
   "rlc", "rl", "rrc", "rr", "sla", "sra", "sll", "srl",
   "bit", "res", "set", "in", "ini", "inir", "ind", "indr",
   "out", "outi", "otir", "outd", "otdr"]

/-!
## Pass 0 (`Asm.pass0`) and EQU substitution (`Asm.equ`)
-/

def isAsciiLetter (c : Char) : Bool :=
  ('A' ≤ c ∧ c ≤ 'Z') ∨ ('a' ≤ c ∧ c ≤ 'z')

/-- `_re_label_start.search(s)` succeeds: the regex `^[A-Za-z@]+` matches at
the start, i.e. the first character is a letter or `@`. -/
def labelStartOk (s : String) : Bool :=
  match s.data with
  | [] => false
  | c :: _ => isAsciiLetter c || c = '@'

/-- `Asm.pass0`: classify each tokenized line, collect the symbol list and
the item list, and thread the current `ORG` base (`start`, initially `-1`). -/
def pass0 (env : AsmEnv) (src : List SrcLine) : Except String (List Item × List LabelEntry) :=
  go src (-1) []
where
  go : List SrcLine → Int → List String → Except String (List Item × List LabelEntry)
  | [], _, _ => .ok ([], [])
  | entry :: rest, start, defined =>
    let asm := entry.asm
    let line := entry.line
    let a0 := asm.headD ""
    let a1 := asm.getD 1 ""
    -- the `org` if-statement (also assigns `start`)
    let orgStep : Except String (Option String × Int) :=
      if asm.length = 2 ∧ pyLower a0 = "org" then
        match pyInt a1 with
        | none => .error ("Invalid address format for ORG in line " ++ toString line
            ++ ": " ++ a1)
        | some v => .ok (some "org", v)
      else .ok (none, start)
    match orgStep with
    | .error e => .error e
    | .ok (ope0, start') =>
      -- the `equ` / `label` / `label+opcode` if-elif chain (may overwrite `ope`)
      let ope : Option String :=
        if asm.length = 4 ∧ a1 = ":" ∧ pyLower (asm.getD 2 "") = "equ" then some "equ"
        else if asm.length = 2 ∧ a1 = ":" then some "label"
        else if asm.length > 2 ∧ a1 = ":" then some "label+opcode"
        else ope0
      match ope with
      | none =>
        match go rest start' defined with
        | .error e => .error e
        | .ok (items, lbls) =>
          .ok ({ line := line, asm := some asm, base := start' } :: items, lbls)
      | some opev =>
        -- reserved-word check on the (would-be) label
        if env.reserved.any (fun x => x = pyLower a0) then
          .error ("Invalid label '" ++ a0 ++ "' in line " ++ toString line
            ++ ": Reserved word")
        else if defined.contains a0 then
          .error ("Duplicate label definition '" ++ a0 ++ "' in line " ++ toString line)
        else if ! labelStartOk a0 then
          .error ("Invalid label format '" ++ a0 ++ "' in line " ++ toString line)
        else
          -- EQU value check; an out-of-range value raises inside the `try`,
          -- is caught, and re-raised with the "Invalid value format" message
          let a3 := asm.getD 3 ""
          let equCheck : Except String Unit :=
            if opev = "equ" then
              match pyInt a3 with
              | none => .error ("Invalid value format for EQU in line " ++ toString line
                  ++ ": " ++ a3)
              | some v =>
                if v ≥ 65535 ∨ v < 0 then
                  .error ("Invalid value format for EQU in line " ++ toString line
                    ++ ": " ++ a3)
                else .ok ()
            else .ok ()
          match equCheck with
          | .error e => .error e
          | .ok _ =>
            let (newItems, newLbls, defined') :=
              if opev = "equ" then
                ([], [(⟨"equ", a0, .s a3⟩ : LabelEntry)], defined ++ [a0])
              else if opev = "label" then
                ([({ line := line, label := some a0, base := start' } : Item)],
                 [(⟨"label", a0, .i 0⟩ : LabelEntry)], defined ++ [a0])
              else if opev = "label+opcode" then
                ([({ line := line, label := some a0, base := start' } : Item),
                  { line := line, asm := some (asm.drop 2), base := start' }],
                 [(⟨"label+opcode", a0, .i 0⟩ : LabelEntry)], defined ++ [a0])
              else  -- "org": registers nothing and emits nothing
                ([], [], defined)
            match go rest start' defined' with
            | .error e => .error e
            | .ok (items, lbls) => .ok (newItems ++ items, newLbls ++ lbls)

/-- The token an `EQU` substitution writes (always the stored literal
token; the `.i` branch is unreachable for `equ` entries). -/
def equValTok : LabelVal → String
  | .s v => v
  | .i v => toString v

/-- `Asm.equ`: substitute every token equal to an EQU symbol by its literal
value token, one `labelmap` entry at a time, in order. -/
def equApply (labelmap : List LabelEntry) (items : List Item) : List Item :=
  labelmap.foldl
    (fun acc m =>
      if m.ltype = "equ" then
        acc.map (fun q =>
          match q.asm with
          | some ts =>
            { q with asm := some (ts.map (fun t => if m.symbol = t then equValTok m.value else t)) }
          | none => q)
      else acc)
    items

/-!
## Pass 1 (`Asm.pass1`, `Asm.asm2op`, `Asm.op0`–`op3`, operand parsing)
-/

/-- `Asm._find_expression_end`: scan from `startIdx` to the first top-level
`,`, an unbalanced `)`, or the end of the tokens. -/
def findExpressionEnd (tokens : List String) (startIdx : Nat) : Nat :=
  go (tokens.length + 1) startIdx 0
where
  go : Nat → Nat → Int → Nat
  | 0, endIdx, _ => endIdx
  | fuel + 1, endIdx, bal =>
    if endIdx < tokens.length then
      let token := tokens.getD endIdx ""
      let bal' := if token = "(" then bal + 1 else if token = ")" then bal - 1 else bal
      if token = "," ∧ bal = 0 then endIdx
      else if bal' < 0 then endIdx
      else go fuel (endIdx + 1) bal'
    else endIdx

/-- `Asm._is_expression_start`. -/
def isExpressionStart (env : AsmEnv) (tokens : List String) (i : Nat) : Bool :=
  let token := tokens.getD i ""
  if env.reserved.contains (pyLower token) then false
  else if token = "," ∨ token = ")" ∨ token = "]" ∨ token = "\x7d" then false
  else if (token = "+" ∨ token = "-") ∧ 0 < i
      ∧ (pyLower (tokens.getD (i - 1) "") = "ix" ∨ pyLower (tokens.getD (i - 1) "") = "iy") then
    false
  else if token = "(" ∧ i + 2 < tokens.length ∧ tokens.getD (i + 2) "" = ")"
      ∧ env.reserved.contains (pyLower (tokens.getD (i + 1) "")) then
    false
  else true

/-- `Asm._evaluate_expression`: slice the expression out with
`_find_expression_end` and run the evaluator on it; pass-1 mode supplies the
defined-label set only when `labelMap` is absent. -/
def evaluateExpression (env : AsmEnv) (tokens : List String) (startIdx : Nat)
    (labelMap : Option (List (String × Int))) (definedLabels : Option (List String))
    (line : Nat) : Except String (Option Int × Nat) :=
  let endIdx := findExpressionEnd tokens startIdx
  let expr := (tokens.drop startIdx).take (endIdx - startIdx)
  let consumed := expr.length
  if expr = [] then .ok (none, 0)
  else
    let definedForEval := match labelMap with
      | none => definedLabels
      | some _ => none
    match evaluate ⟨expr, labelMap, line, env.reserved, definedForEval⟩ with
    | .error e => .error e
    | .ok v => .ok (v, consumed)

/-- `Asm._parse_operands`: find the expression positions, evaluating each in
pass-1 mode; evaluation errors other than `Undefined symbol` are swallowed
and scanning resumes one token later. -/
def parseOperands (env : AsmEnv) (definedLabels : Option (List String)) (line : Nat)
    (asm : List String) : Except String (List OperandRec) :=
  go (asm.length + 1) 0
where
  isDir : Bool :=
    let m := pyLower (asm.headD "")
    m = "dw" ∨ m = "defw" ∨ m = "db" ∨ m = "defb"
  go : Nat → Nat → Except String (List OperandRec)
  | 0, _ => .ok []
  | fuel + 1, i =>
    if i < asm.length then
      let tok := asm.getD i ""
      if ¬ isDir ∧ tok = "(" then go fuel (i + 1)
      else if isExpressionStart env asm i ∨ (isDir ∧ tok = "(") then
        match evaluateExpression env asm i none definedLabels line with
        | .error e =>
          if strContainsSub e "Undefined symbol" then .error e
          else go fuel (i + 1)
        | .ok (val, consumed) =>
          if 0 < consumed then
            (go fuel (i + consumed)).map
              (fun rs => (⟨val, i, consumed⟩ : OperandRec) :: rs)
          else go fuel (i + 1)
      else go fuel (i + 1)
    else .ok []

/-- `Asm.opcode`: look the lowercased token tuple up in the instruction
table (`[item] if item else []`, folded into an `Option`). -/
def opcodeLookup (env : AsmEnv) (s : List String) : Option InstrDesc :=
  env.asmMap (s.map pyLower)

/-- Python list-slice assignment `ref[loc : loc+len] = repl`. -/
def listSplice (l : List String) (loc len : Nat) (repl : List String) : List String :=
  l.take loc ++ repl ++ l.drop (loc + len)

/-- `Asm.op0`. -/
def op0 (env : AsmEnv) (s : List String) : List Nat × List Fixup :=
  match opcodeLookup env s with
  | some u => (u.code, [])
  | none => ([], [])

/-- `Asm.op1`: one byte-slot operand (`0x{0}` template), covering the
relative-jump and `DDCB`/`FDCB` layouts. -/
def op1 (env : AsmEnv) (s : List String) (d : OperandRec) : Except String (List Nat × List Fixup) :=
  match d.value with
  | none => .error "TypeError"  -- unreachable: records with consumed > 0 carry a value
  | some val =>
    let ref := listSplice s d.location d.length ["0x{0}"]
    match opcodeLookup env ref with
    | none => .ok ([], [])
    | some u =>
      let r := u.code
      if u.rel then
        let r := r ++ [0x00]
        .ok (r, [⟨r.length - 1, 1, "rel", d⟩])
      else if ¬ (-128 ≤ val ∧ val ≤ 255) then
        .error ("Byte value out of range: " ++ toString val)
      else
        let valByte := and255 val
        match u.ext with
        | some e => .ok (r ++ [valByte, e], [⟨2, 1, "byte", d⟩])
        | none =>
          let r := r ++ [valByte]
          .ok (r, [⟨r.length - 1, 1, "byte", d⟩])

/-- `Asm.op2`: one word-slot operand (`0x{1}{0}` template). -/
def op2 (env : AsmEnv) (s : List String) (d : OperandRec) : Except String (List Nat × List Fixup) :=
  match d.value with
  | none => .error "TypeError"
  | some val =>
    if ¬ (-32768 ≤ val ∧ val ≤ 65535) then
      .error ("Word value out of range: " ++ toString val)
    else
      let ref := listSplice s d.location d.length ["0x{1}{0}"]
      match opcodeLookup env ref with
      | none => .ok ([], [])
      | some u =>
        let valWord := and65535 val
        let r := u.code ++ [valWord % 256, valWord / 256 % 256]
        .ok (r, [⟨r.length - 2, 2, "word", d⟩])

/-- `Asm.op3`: two byte-slot operands (`ld (ix+d), n` family). -/
def op3 (env : AsmEnv) (s : List String) (d0 d1 : OperandRec) : Except String (List Nat × List Fixup) :=
  match d0.value, d1.value with
  | some val0, some val1 =>
    if ¬ (-128 ≤ val0 ∧ val0 ≤ 255) ∨ ¬ (-128 ≤ val1 ∧ val1 ≤ 255) then
      .error ("Operand value out of range: " ++ toString val0 ++ ", " ++ toString val1)
    else
      let ref := (s.set d0.location "0x{0}").set d1.location "0x{1}"
      match opcodeLookup env ref with
      | none => .ok ([], [])
      | some u =>
        let r := u.code ++ [and255 val0, and255 val1]
        .ok (r, [⟨r.length - 2, 1, "byte", d0⟩, ⟨r.length - 1, 1, "byte", d1⟩])
  | _, _ => .error "TypeError"

/-- `Asm.asm2op`. -/
def asm2op (env : AsmEnv) (definedLabels : Option (List String)) (item : Item) :
    Except String (List Nat × List Fixup) :=
  match item.asm with
  | none => .ok ([], [])
  | some asm =>
    match parseOperands env definedLabels item.line asm with
    | .error e => .error e
    | .ok rs =>
      let templateAsm := asm
      let mnemonic := pyLower (asm.headD "")
      -- for bit/res/set the first operand is part of the opcode key
      let rs := if (mnemonic = "bit" ∨ mnemonic = "res" ∨ mnemonic = "set") ∧ rs ≠ []
        then rs.tail else rs
      match rs with
      | [] => .ok (op0 env templateAsm)
      | [d] =>
        match op1 env templateAsm d with
        | .error e => .error e
        | .ok (op, fixups) =>
          if op.length = 0 then op2 env templateAsm d else .ok (op, fixups)
      | [d0, d1] => op3 env templateAsm d0 d1
      | _ => .error ("Invalid operand count or format in line " ++ toString item.line
          ++ ": " ++ String.intercalate " " asm)

/-- `Asm.pass1`: walk the items, resetting `offset` whenever `base` changes,
delegating `DB`/`DW` to the directive handler, encoding the rest through
`asm2op`, and recording each label's address.  Returns the updated items and
the `label2address` list. -/
def pass1 (env : AsmEnv) (labelmap : List LabelEntry) (items : List Item) :
    Except String (List Item × List (String × Int)) :=
  go items 0 none
where
  definedLabels : List String := labelmap.map (·.symbol)
  go : List Item → Nat → Option Int → Except String (List Item × List (String × Int))
  | [], _, _ => .ok ([], [])
  | item :: rest, curOff0, lastBase0 =>
    let (curOff, lastBase) :=
      if some item.base ≠ lastBase0 then (0, some item.base) else (curOff0, lastBase0)
    match item.asm with
    | some toks =>
      let mnemonic := pyLower (toks.headD "")
      if mnemonic = "db" ∨ mnemonic = "defb" then
        match processDbPass1 item.line toks with
        | .error e => .error e
        | .ok opcodes =>
          let item' := { item with offset := curOff, opcode := some opcodes }
          (go rest (curOff + opcodes.length) lastBase).map
            (fun p => (item' :: p.1, p.2))
      else if mnemonic = "dw" ∨ mnemonic = "defw" then
        match processDwPass1 item.line toks with
        | .error e => .error e
        | .ok opcodes =>
          let item' := { item with offset := curOff, opcode := some opcodes }
          (go rest (curOff + opcodes.length) lastBase).map
            (fun p => (item' :: p.1, p.2))
      else
        match asm2op env (some definedLabels) item with
        | .error e => .error e
        | .ok (op, fixups) =>
          if op = [] then
            .error ("Invalid instruction or syntax in line " ++ toString item.line
              ++ ": " ++ String.intercalate " " toks)
          else
            let item' := { item with offset := curOff, opcode := some op, fixups := fixups }
            (go rest (curOff + op.length) lastBase).map
              (fun p => (item' :: p.1, p.2))
    | none =>
      match item.label with
      | some lbl =>
        -- adr = last_base + current_offset (last_base equals item.base here)
        let adr : Int := item.base + curOff
        let item' := { item with offset := curOff }
        (go rest curOff lastBase).map
          (fun p => (item' :: p.1, (lbl, adr) :: p.2))
      | none =>
        (go rest curOff lastBase).map (fun p => (item :: p.1, p.2))

/-!
## Pass 2 (`Asm.pass2`, `Asm._pass2_instruction`,
`DirectiveHandler.process_dw_pass2`) and the byte image (`assemble`)
-/

/-- One iteration of the fixup loop in `Asm._pass2_instruction`: re-evaluate
the fixup's token slice against the final symbol table and patch the opcode
bytes according to the fixup kind. -/
def pass2FixupStep (env : AsmEnv) (asmToks : List String) (line : Nat) (base : Int)
    (off : Nat) (labelMapD : List (String × Int)) (opc : List Nat) (fixup : Fixup) :
    Except String (List Nat) :=
  match evaluateExpression env asmToks fixup.src.location (some labelMapD) none line with
  | .error e => .error e
  | .ok (addressOpt, _) =>
    match addressOpt with
    | none => .ok opc  -- unresolvable expression: skipped
    | some address =>
      if fixup.ftype = "rel" then
        let pc : Int := base + off + opc.length
        let offset := address - pc
        if ¬ (-128 ≤ offset ∧ offset ≤ 127) then
          .error ("Relative jump out of range (" ++ toString offset ++ ") in line "
            ++ toString line)
        else
          let offset := if offset < 0 then offset + 0x100 else offset
          .ok (opc.set fixup.offset (and255 offset))
      else if fixup.ftype = "word" then
        if ¬ (-32768 ≤ address ∧ address ≤ 65535) then
          .error ("Word value out of range: " ++ toString address ++ " in line "
            ++ toString line)
        else
          .ok ((opc.set fixup.offset (and255 address)).set (fixup.offset + 1)
            (and255 (shr8 address)))
      else if fixup.ftype = "byte" then
        if ¬ (-128 ≤ address ∧ address ≤ 255) then
          .error ("Byte value out of range: " ++ toString address ++ " in line "
            ++ toString line)
        else .ok (opc.set fixup.offset (and255 address))
      else .ok opc

/-- `Asm._pass2_instruction`. -/
def pass2Instruction (env : AsmEnv) (item : Item) (labelMapD : List (String × Int)) :
    Except String Item :=
  if item.fixups = [] then .ok item
  else
    match item.fixups.foldlM
        (pass2FixupStep env (item.asm.getD []) item.line item.base item.offset labelMapD)
        (item.opcode.getD []) with
    | .error e => .error e
    | .ok opc => .ok { item with opcode := some opc }

/-- `DirectiveHandler.process_dw_pass2`: walk the comma-separated
expressions, re-evaluate each against the final symbol table, range-check
`[0, 65535]`, and write the little-endian bytes over the placeholders. -/
def processDwPass2 (env : AsmEnv) (item : Item) (labelMapD : List (String × Int)) :
    Except String Item :=
  let toks := item.asm.getD []
  go (toks.length + 1) 1 (item.opcode.getD []) 0
where
  go (fuel i : Nat) (opc : List Nat) (curByteOff : Nat) : Except String Item :=
    match fuel with
    | 0 => .ok { item with opcode := some opc }
    | fuel + 1 =>
      let toks := item.asm.getD []
      if i < toks.length then
        let token := toks.getD i ""
        if token = "," then go fuel (i + 1) opc curByteOff
        else
          match evaluateExpression env toks i (some labelMapD) none item.line with
          | .error e => .error e
          | .ok (addressOpt, consumed) =>
            match addressOpt with
            | none => .error ("Undefined label or invalid expression in DW at line "
                ++ toString item.line ++ ": " ++ token)
            | some address =>
              if ¬ (0 ≤ address ∧ address ≤ 65535) then
                .error ("DW value out of word range (0-65535) in line "
                  ++ toString item.line ++ ": " ++ toString address)
              else
                go fuel (i + consumed)
                  ((opc.set curByteOff (and255 address)).set (curByteOff + 1)
                    (and255 (shr8 address)))
                  (curByteOff + 2)
      else .ok { item with opcode := some opc }

/-- The write-back of resolved addresses into `labelmap` values at the top
of `Asm.pass2` (no later stage reads them; kept for fidelity). -/
def updateLabelmap (labelmap : List LabelEntry) (labelMapD : List (String × Int)) :
    List LabelEntry :=
  labelmap.map (fun m =>
    match labelMapD.lookup m.symbol with
    | some v => { m with value := .i v }
    | none => m)

/-- `Asm.pass2`. -/
def pass2 (env : AsmEnv) (items : List Item) (label2address : List (String × Int)) :
    Except String (List Item) :=
  let labelMapD := label2address.foldl (fun d p => dictInsert d p.1 p.2) []
  items.mapM (fun item =>
    match item.asm with
    | none => .ok item
    | some toks =>
      let mnemonic := pyLower (toks.headD "")
      if mnemonic = "dw" ∨ mnemonic = "defw" then processDwPass2 env item labelMapD
      else pass2Instruction env item labelMapD)

/-- `Asm.assemble_lines`: tokenize, pass-0, EQU substitution, pass-1,
pass-2. -/
def assembleLines (env : AsmEnv) (lines : List String) : Except String (List Item) :=
  let src := sourceLines lines
  match pass0 env src with
  | .error e => .error e
  | .ok (items, labelmap) =>
    let items := equApply labelmap items
    match pass1 env labelmap items with
    | .error e => .error e
    | .ok (items, label2address) => pass2 env items label2address

/-- `memory[k] = v` on the insertion-ordered address dict of `assemble`. -/
def memInsert (d : List (Int × Nat)) (k : Int) (v : Nat) : List (Int × Nat) :=
  match d with
  | [] => [(k, v)]
  | (k', v') :: t => if k' = k then (k, v) :: t else (k', v') :: memInsert t k v

/-- The byte-image construction of the module-level `assemble`: a memory
dict over `base + offset + i`, with `min_addr` initialised to `0xFFFF` and
`max_addr` to `0`, then a zero-filled buffer of `max - min + 1` bytes. -/
def assembleBytes (items : List Item) : List Nat :=
  let st := items.foldl
    (fun (st : List (Int × Nat) × Int × Int) item =>
      match item.opcode with
      | some ops =>
        if ops ≠ [] then
          let addr : Int := item.base + item.offset
          (ops.foldl
            (fun (st : (List (Int × Nat) × Int × Int) × Int) byte =>
              let ((mem, mn, mx), cur) := st
              let mem := memInsert mem cur byte
              let mn := if cur < mn then cur else mn
              let mx := if cur > mx then cur else mx
              ((mem, mn, mx), cur + 1))
            (st, addr)).1
        else st
      | none => st)
    ([], 0xFFFF, 0)
  let (memory, minAddr, maxAddr) := st
  if memory = [] then []
  else
    let size := (maxAddr - minAddr + 1).toNat
    memory.foldl (fun res p => res.set (p.1 - minAddr).toNat p.2)
      (List.replicate size 0)

/-- `source.splitlines()` for `"\n"`-separated sources (a possible trailing
empty piece is discarded by `Asm.source` either way). -/
def pySplitLines (s : String) : List String :=
  go s.data []
where
  go : List Char → List Char → List String
  | [], cur => [String.mk cur.reverse]
  | c :: rest, cur =>
    if c = '\n' then String.mk cur.reverse :: go rest []
    else go rest (c :: cur)

/-- The module-level `assemble(source)`: split into lines, assemble, and
build the byte image. -/
def assemble (env : AsmEnv) (source : String) : Except String (List Nat) :=
  (assembleLines env (pySplitLines source)).map assembleBytes

/-!
## Disassembler (`disasm.py`)
-/

/-- The disassembler's environment: the byte-keyed instruction table and the
character map live in the absent `z80.py` and are parameters; `datamap` is
the instance's configured data-range list. -/
structure DisEnv where
  opMap : List Nat → Option InstrDesc
  strmap : Nat → String
  datamap : List (Int × Int)

/-- One entry of the disassembly list (`{"address", "opcode", "asm"}`, plus
the back-patched `label`; the synthesized `org` entry has no opcode). -/
structure DLine where
  address : Int
  opcode : Option (List Nat) := none
  asm : String
  label : Option String := none
  deriving DecidableEq, Repr

/-- `Disasm._tmpl`. -/
def tmpl (asmL : List String) : String :=
  let mnemonic := pyUpper (asmL.headD "")
  if asmL.length = 1 then mnemonic
  else mnemonic ++ " " ++ (String.join (asmL.drop 1)).replace "," ", "

/-- `Disasm._reladdr`. -/
def reladdr (x : Nat) (y : Int) : Nat :=
  let b : Int := if x &&& 0x80 ≠ 0 then (x : Int) - 0x100 else ((x &&& 0x7F : Nat) : Int)
  ((b + y + 2).emod 0x10000).toNat

/-- `Disasm._handle_1byte`. -/
def handle1 (u : InstrDesc) (_opcode : List Nat) (_adr : Int) : Option String :=
  some (tmpl u.asmT)

/-- `Disasm._handle_2bytes` (the `.replace(…).format(…)` pair is fused into
one replacement of the slot by its formatted value). -/
def handle2 (u : InstrDesc) (opcode : List Nat) (adr : Int) : Option String :=
  if u.rel then
    some ((tmpl u.asmT).replace "0x{0}" ("L_" ++ hex4 (reladdr (opcode.getD 1 0) adr)))
  else
    some ((tmpl u.asmT).replace "{0}" (hex2 (opcode.getD 1 0)))

/-- `Disasm._handle_3bytes`. -/
def handle3 (u : InstrDesc) (opcode : List Nat) (_adr : Int) : Option String :=
  if u.jmp then
    some ((tmpl u.asmT).replace "0x{1}{0}"
      ("L_" ++ hex2 (opcode.getD 2 0) ++ hex2 (opcode.getD 1 0)))
  else if u.otype = some "byte" then
    some ((tmpl u.asmT).replace "{0}" (hex2 (opcode.getD 2 0)))
  else if u.otype = some "word" then
    some (((tmpl u.asmT).replace "{0}" (hex2 (opcode.getD 1 0))).replace "{1}"
      (hex2 (opcode.getD 2 0)))
  else none

/-- `Disasm._handle_4bytes`. -/
def handle4 (u : InstrDesc) (opcode : List Nat) (_adr : Int) : Option String :=
  if u.ext.isSome then
    some ((tmpl u.asmT).replace "{0}" (hex2 (opcode.getD 2 0)))
  else if u.otype = some "byte" ∨ u.otype = some "word" then
    some (((tmpl u.asmT).replace "{0}" (hex2 (opcode.getD 2 0))).replace "{1}"
      (hex2 (opcode.getD 3 0)))
  else none

/-- `Disasm.op2asm`: the datamap check first (any range containing `adr`
yields the `db`-with-comment line for the window's first byte), then the
`(prefix, CB, suffix)` / 2-byte / 1-byte key lookups, then the per-length
handler, provided the descriptor's `bytes` equals the window length. -/
def op2asm (env : DisEnv) (adr : Int) (opcode : List Nat) : Option String :=
  if env.datamap.any (fun p => p.1 ≤ adr ∧ p.2 ≥ adr) then
    some ("db 0x" ++ hex2 (opcode.getD 0 0) ++ " ; [" ++ env.strmap (opcode.getD 0 0) ++ "]")
  else
    let u : Option InstrDesc :=
      if opcode.length = 4 ∧ (opcode.getD 0 0 = 0xDD ∨ opcode.getD 0 0 = 0xFD)
          ∧ opcode.getD 1 0 = 0xCB then
        env.opMap [opcode.getD 0 0, opcode.getD 1 0, opcode.getD 3 0]
      else
        match (if opcode.length ≥ 2 then env.opMap (opcode.take 2) else none) with
        | some u2 => some u2
        | none => if opcode.length ≥ 1 then env.opMap (opcode.take 1) else none
    match u with
    | none => none
    | some u =>
      if u.bytes = opcode.length then
        match u.bytes with
        | 1 => handle1 u opcode adr
        | 2 => handle2 u opcode adr
        | 3 => handle3 u opcode adr
        | 4 => handle4 u opcode adr
        | _ => none
      else none

/-- The first match of the regex `(L_([0-9a-fA-F]{4}))` in an asm string:
the matched text and the hex value of its four digits. -/
def findLabelRef (s : String) : Option (String × Nat) :=
  go s.data
where
  go : List Char → Option (String × Nat)
  | [] => none
  | c :: rest =>
    if c = 'L' then
      match rest with
      | '_' :: h1 :: h2 :: h3 :: h4 :: _ =>
        if [h1, h2, h3, h4].all isHexDigit then
          some (String.mk ['L', '_', h1, h2, h3, h4], digitsVal 16 [h1, h2, h3, h4])
        else go rest
      | _ => go rest
    else go rest

/-- `labels[target] = name + ":"` (insertion-ordered dict on `Nat` keys). -/
def labelDictInsert (d : List (Nat × String)) (k : Nat) (v : String) : List (Nat × String) :=
  match d with
  | [] => [(k, v)]
  | (k', v') :: t => if k' = k then (k, v) :: t else (k', v') :: labelDictInsert t k v

/-- In-place update of one list element. -/
def updateAt (l : List DLine) (idx : Nat) (f : DLine → DLine) : List DLine :=
  match l.get? idx with
  | some x => l.set idx (f x)
  | none => l

/-- The label back-patching pass at the end of `Disasm.exec`: collect every
`L_hhhh` reference, map addresses to (the last) line index, and attach
`label` to the referenced lines. -/
def backpatchLabels (lst : List DLine) : List DLine :=
  let labels := lst.foldl
    (fun d line =>
      match findLabelRef line.asm with
      | some (name, target) => labelDictInsert d target (name ++ ":")
      | none => d)
    []
  let addrMap := lst.enum.foldl (fun d p => memInsert d p.2.address p.1) []
  labels.foldl
    (fun acc p =>
      match addrMap.lookup ((p.1 : Nat) : Int) with
      | some idx => updateAt acc idx (fun line => { line with label := some p.2 })
      | none => acc)
    lst

/-- `Disasm.exec`: bounds guards, the 64 KiB memory load, the synthesized
`org` line, the longest-match-first decode loop, and label back-patching.
The while loop advances by the matched window's length each iteration, so
`size` units of fuel suffice. -/
def disasmExec (env : DisEnv) (start : Int) (images : List Nat) (size : Int) : List DLine :=
  let maxword : Int := 0xFFFF
  if size + start > maxword then []
  else if start > maxword ∨ start < 0 then []
  else
    let endA := start + size - 1
    -- mem = [0]*0x10000 with images[p] loaded at start+p for p < size
    let mem : Int → Nat := fun a =>
      if start ≤ a ∧ a < start + size then images.getD (a - start).toNat 0 else 0
    let first : DLine := { address := start, asm := "org 0x" ++ hex4 start.toNat }
    let rec go : Nat → Int → List DLine
      | 0, _ => []
      | fuel + 1, adr =>
        if adr ≤ endA then
          -- longest-match-first: 4-, 3-, 2-, then 1-byte windows; a window is
          -- kept only when the rendering is truthy (non-empty)
          let s1 : Option String × List Nat :=
            if adr + 3 ≤ endA then
              let w := [mem adr, mem (adr + 1), mem (adr + 2), mem (adr + 3)]
              match op2asm env adr w with
              | some str => (some str, if str ≠ "" then w else [])
              | none => (none, [])
            else (none, [])
          let s2 : Option String × List Nat :=
            if s1.1 = none ∧ adr + 2 ≤ endA then
              let w := [mem adr, mem (adr + 1), mem (adr + 2)]
              match op2asm env adr w with
              | some str => (some str, if str ≠ "" then w else [])
              | none => (none, [])
            else s1
          let s3 : Option String × List Nat :=
            if s2.1 = none ∧ adr + 1 ≤ endA then
              let w := [mem adr, mem (adr + 1)]
              match op2asm env adr w with
              | some str => (some str, if str ≠ "" then w else [])
              | none => (none, [])
            else s2
          let s4 : Option String × List Nat :=
            if s3.1 = none then
              let w := [mem adr]
              match op2asm env adr w with
              | some str => (some str, if str ≠ "" then w else [])
              | none => (none, [])
            else s3
          match s4.1 with
          | some str =>
            { address := adr, opcode := some s4.2, asm := str }
              :: go fuel (adr + s4.2.length)
          | none =>
            { address := adr, opcode := some [mem adr],
              asm := "db 0x" ++ hex2 (mem adr) ++ " ; Invalid Opcode" }
              :: go fuel (adr + 1)
        else []
    backpatchLabels (first :: go (size.toNat + 1) start)

/-!
## Helper lemmas
-/

/-- A token that parses as an integer is not one of the evaluator's
structural tokens and does not start with a quote. -/
theorem pyInt_token_facts (s : String) (a : Int) (h : pyInt s = some a) :
    s ≠ "(" ∧ s ≠ "-" ∧ s ≠ "+" ∧ s ≠ ","
      ∧ pyStartsWith s '\'' = false ∧ pyStartsWith s '"' = false := by
  refine ⟨?_, ?_, ?_, ?_, ?_, ?_⟩
  · intro hs; rw [hs] at h; exact Option.noConfusion h
  · intro hs; rw [hs] at h; exact Option.noConfusion h
  · intro hs; rw [hs] at h; exact Option.noConfusion h
  · intro hs; rw [hs] at h; exact Option.noConfusion h
  · unfold pyInt at h
    unfold pyStartsWith
    cases hd : s.data with
    | nil => rfl
    | cons c t =>
      rw [hd] at h
      by_cases hc : c = '\''
      · subst hc
        rw [show pyIntCore ('\'' :: t) = none from rfl] at h
        exact Option.noConfusion h
      · simp [hc]
  · unfold pyInt at h
    unfold pyStartsWith
    cases hd : s.data with
    | nil => rfl
    | cons c t =>
      rw [hd] at h
      by_cases hc : c = '"'
      · subst hc
        rw [show pyIntCore ('"' :: t) = none from rfl] at h
        exact Option.noConfusion h
      · simp [hc]

/-!
## Claim theorems
-/

/-- Claim C6: assembling `VAL: EQU 10` then `dw 5 + VAL * 2` produces
exactly the two bytes `0x19 0x00`, for any instruction table: the EQU
pre-pass rewrites the `dw` line's tokens to `5 + 10 * 2` before pass-1,
pass-1 emits the two-byte `00 00` placeholder for the multi-token operand,
and pass-2 evaluates `25` and stores it little-endian. -/
theorem C6_equ_dw_pipeline :
    ∀ tbl : List String → Option InstrDesc,
      (pass0 ⟨specReserved, tbl⟩ (sourceLines (pySplitLines "VAL: EQU 10\ndw 5 + VAL * 2")) =
        .ok ([{ line := 2, asm := some ["dw", "5", "+", "VAL", "*", "2"], base := -1 }],
             [⟨"equ", "VAL", .s "10"⟩]))
      ∧ (equApply [⟨"equ", "VAL", .s "10"⟩]
           [{ line := 2, asm := some ["dw", "5", "+", "VAL", "*", "2"], base := -1 }] =
         [{ line := 2, asm := some ["dw", "5", "+", "10", "*", "2"], base := -1 }])
      ∧ (pass1 ⟨specReserved, tbl⟩ [⟨"equ", "VAL", .s "10"⟩]
           [{ line := 2, asm := some ["dw", "5", "+", "10", "*", "2"], base := -1 }] =
         .ok ([{ line := 2, asm := some ["dw", "5", "+", "10", "*", "2"], base := -1,
                 opcode := some [0x00, 0x00] }], []))
      ∧ (pass2 ⟨specReserved, tbl⟩
           [{ line := 2, asm := some ["dw", "5", "+", "10", "*", "2"], base := -1,
              opcode := some [0x00, 0x00] }] [] =
         .ok [{ line := 2, asm := some ["dw", "5", "+", "10", "*", "2"], base := -1,
                opcode := some [0x19, 0x00] }])
      ∧ (assemble ⟨specReserved, tbl⟩ "VAL: EQU 10\ndw 5 + VAL * 2" = .ok [0x19, 0x00]) :=
  fun _ => ⟨rfl, rfl, rfl, rfl, rfl⟩

/-- Claim C2 (violated by the code): the source `org 0xFFFF` / `db 0` /
`db 0` assembles without error, yet its second emitted line has
`base + offset + len(opcode) = 0x10001 > 0x10000` — no pass enforces the
64 KiB bound. -/
theorem C2_no_address_bound :
    ∀ tbl : List String → Option InstrDesc,
      ∃ items, assembleLines ⟨specReserved, tbl⟩ ["org 0xFFFF", "db 0", "db 0"] = .ok items
        ∧ ∃ it ∈ items, it.opcode.isSome
            ∧ it.base + (it.offset : Int) + ((it.opcode.getD []).length : Int) > 0x10000 :=
  fun _ =>
    ⟨[{ line := 2, asm := some ["db", "0"], base := 0xFFFF, offset := 0, opcode := some [0] },
      { line := 3, asm := some ["db", "0"], base := 0xFFFF, offset := 1, opcode := some [0] }],
     rfl,
     { line := 3, asm := some ["db", "0"], base := 0xFFFF, offset := 1, opcode := some [0] },
     by simp, by decide, by decide⟩

/-- Claim C10 (violated by the code): `org 0x10000` / `db 1` emits exactly
one byte, at address 0x10000, yet `assemble` returns the two bytes
`00 01`: `min_addr` is initialised to `0xFFFF` and only ever lowered, so
the returned span starts at 0xFFFF instead of at the lowest emitted
address. -/
theorem C10_min_addr_bug :
    ∀ tbl : List String → Option InstrDesc,
      (assembleLines ⟨specReserved, tbl⟩ ["org 0x10000", "db 1"] =
        .ok [{ line := 2, asm := some ["db", "1"], base := 0x10000, offset := 0,
               opcode := some [0x01] }])
      ∧ assemble ⟨specReserved, tbl⟩ "org 0x10000\ndb 1" = .ok [0x00, 0x01] :=
  fun _ => ⟨rfl, rfl⟩

/-- Claim C1 (violated by the code): with datamap `[[0, 3]]`, disassembling
the four bytes `41 42 43 44` from address 0 emits a single
`db 0x41 ; […]` line whose recorded opcode is the whole 4-byte window, and
the loop then stops — the address advanced by 4, not by 1, and the bytes
`42 43 44` never appear. -/
theorem C1_datamap_advances_by_window :
    ∀ om : List Nat → Option InstrDesc,
      disasmExec ⟨om, fun _ => ".", [(0, 3)]⟩ 0 [0x41, 0x42, 0x43, 0x44] 4 =
        [{ address := 0, asm := "org 0x0000" },
         { address := 0, opcode := some [0x41, 0x42, 0x43, 0x44], asm := "db 0x41 ; [.]" }] :=
  fun _ => rfl

/-- Claim C9: `Disasm.exec` returns the empty list — no `org` line, no
error — whenever `start < 0`, `start > 0xFFFF`, or `start + size > 0xFFFF`
(so in particular for a full 64 KiB image at address 0). -/
theorem C9_exec_guards (env : DisEnv) (start size : Int) (images : List Nat)
    (h : start < 0 ∨ start > 0xFFFF ∨ start + size > 0xFFFF) :
    disasmExec env start images size = [] := by
  unfold disasmExec
  by_cases h1 : size + start > (0xFFFF : Int)
  · simp [h1]
  · have h2 : start > (0xFFFF : Int) ∨ start < 0 := by
      rcases h with h | h | h
      · exact Or.inr h
      · exact Or.inl h
      · omega
    simp [h1, h2]

/-- Witness for C9 at the claim's "in particular" instance: a full 64 KiB
image (`size = 65536`) starting at address 0 yields no output at all. -/
theorem C9_exec_guards_witness :
    ((0 : Int) < 0 ∨ (0 : Int) > 0xFFFF ∨ (0 : Int) + 65536 > 0xFFFF)
    ∧ disasmExec ⟨fun _ => none, fun _ => "", []⟩ 0 (List.replicate 65536 0) 65536 = [] :=
  ⟨by decide,
   C9_exec_guards ⟨fun _ => none, fun _ => "", []⟩ 0 65536 (List.replicate 65536 0) (by decide)⟩

/-- Claim C7: a line `name : EQU tok` whose value token parses to `v` is
accepted by pass-0 exactly when `0 ≤ v < 65535` (so `0xFFFF` itself is
rejected), an accepted EQU adds the binding used by the substitution
pre-pass, and the substitution replaces every token equal to `name` by the
literal value token. -/
theorem C7_equ_range (res : List String) (tbl : List String → Option InstrDesc)
    (name tok : String) (v : Int)
    (hres : res.any (fun x => x = pyLower name) = false)
    (hlbl : labelStartOk name = true)
    (hval : pyInt tok = some v) :
    ((0 ≤ v ∧ v < 65535 →
        pass0 ⟨res, tbl⟩ [⟨1, [name, ":", "EQU", tok]⟩] = .ok ([], [⟨"equ", name, .s tok⟩]))
      ∧ (v < 0 ∨ 65535 ≤ v →
        pass0 ⟨res, tbl⟩ [⟨1, [name, ":", "EQU", tok]⟩] =
          .error ("Invalid value format for EQU in line 1: " ++ tok)))
    ∧ (∀ items, equApply [⟨"equ", name, .s tok⟩] items =
        items.map (fun q =>
          match q.asm with
          | some ts => { q with asm := some (ts.map (fun t => if name = t then tok else t)) }
          | none => q)) := by
  refine ⟨⟨?_, ?_⟩, fun items => rfl⟩
  · intro hr
    have hcond : ¬(v ≥ 65535 ∨ v < 0) := by omega
    simp [pass0, pass0.go, hres, hlbl, hval, hcond,
      show pyLower "EQU" = "equ" from rfl]
  · intro hr
    have hcond : v ≥ 65535 ∨ v < 0 := by omega
    simp [pass0, pass0.go, hres, hlbl, hval, hcond,
      show pyLower "EQU" = "equ" from rfl]
    rfl

/-- Witness for C7: `VAL: EQU 10` is accepted and bound; `VAL: EQU 0xFFFF`
is a fatal error. -/
theorem C7_equ_range_witness :
    specReserved.any (fun x => x = pyLower "VAL") = false
    ∧ labelStartOk "VAL" = true
    ∧ pyInt "10" = some 10
    ∧ pass0 ⟨specReserved, fun _ => none⟩ [⟨1, ["VAL", ":", "EQU", "10"]⟩] =
        .ok ([], [⟨"equ", "VAL", .s "10"⟩])
    ∧ pyInt "0xFFFF" = some 65535
    ∧ pass0 ⟨specReserved, fun _ => none⟩ [⟨1, ["VAL", ":", "EQU", "0xFFFF"]⟩] =
        .error "Invalid value format for EQU in line 1: 0xFFFF" :=
  ⟨rfl, rfl, rfl,
   (C7_equ_range specReserved (fun _ => none) "VAL" "10" 10 rfl rfl rfl).1.1 (by decide),
   rfl,
   (C7_equ_range specReserved (fun _ => none) "VAL" "0xFFFF" 65535 rfl rfl rfl).1.2 (by decide)⟩

/-- Claim C5: a `rel8` fixup whose expression resolves to `address` is
applied with `pc = base + offset + len(opcode)` and `delta = address - pc`:
pass-2 fails exactly when `delta ∉ [-128, 127]`, and on success stores
`delta & 0xFF` (that is, `delta mod 256`) at the fixup's offset. -/
theorem C5_rel8_fixup (env : AsmEnv) (toks : List String) (line : Nat) (base : Int)
    (off : Nat) (lm : List (String × Int)) (opc : List Nat) (fix : Fixup)
    (address : Int) (n : Nat)
    (hrel : fix.ftype = "rel")
    (heval : evaluateExpression env toks fix.src.location (some lm) none line =
      .ok (some address, n)) :
    ((-128 ≤ address - (base + off + opc.length) ∧ address - (base + off + opc.length) ≤ 127 →
        pass2FixupStep env toks line base off lm opc fix =
          .ok (opc.set fix.offset (and255 (address - (base + off + opc.length)))))
      ∧ (¬(-128 ≤ address - (base + off + opc.length) ∧
            address - (base + off + opc.length) ≤ 127) →
        pass2FixupStep env toks line base off lm opc fix =
          .error ("Relative jump out of range ("
            ++ toString (address - (base + off + opc.length)) ++ ") in line "
            ++ toString line))) := by
  constructor
  · intro hr
    unfold pass2FixupStep
    rw [heval]
    simp only [hrel, reduceIte]
    rw [if_neg (not_not_intro hr)]
    have key : and255 (if address - (base + (off : Int) + (opc.length : Int)) < 0
        then address - (base + (off : Int) + (opc.length : Int)) + 256
        else address - (base + (off : Int) + (opc.length : Int))) =
        and255 (address - (base + (off : Int) + (opc.length : Int))) := by
      unfold and255
      split
      · have h2 := @Int.add_mul_emod_self_left
          (address - (base + (off : Int) + (opc.length : Int))) 256 1
        rw [mul_one] at h2
        exact congrArg Int.toNat h2
      · rfl
    rw [key]
  · intro hr
    unfold pass2FixupStep
    rw [heval]
    simp only [hrel, reduceIte]
    rw [if_pos hr]

/-- Witness for C5: resolving `jr 10` at pc 2 stores `8`; resolving
`jr 200` at pc 2 (delta 198) fails. -/
theorem C5_rel8_fixup_witness :
    ((-128 : Int) ≤ 10 - (0 + 0 + 2) ∧ (10 : Int) - (0 + 0 + 2) ≤ 127)
    ∧ pass2FixupStep ⟨specReserved, fun _ => none⟩ ["jr", "10"] 1 0 0 [] [0x18, 0x00]
        ⟨1, 1, "rel", ⟨some 10, 1, 1⟩⟩ = .ok [0x18, 0x08]
    ∧ ¬((-128 : Int) ≤ 200 - (0 + 0 + 2) ∧ (200 : Int) - (0 + 0 + 2) ≤ 127)
    ∧ pass2FixupStep ⟨specReserved, fun _ => none⟩ ["jr", "200"] 1 0 0 [] [0x18, 0x00]
        ⟨1, 1, "rel", ⟨some 200, 1, 1⟩⟩ =
      .error "Relative jump out of range (198) in line 1" :=
  ⟨by decide,
   (C5_rel8_fixup ⟨specReserved, fun _ => none⟩ ["jr", "10"] 1 0 0 [] [0x18, 0x00]
     ⟨1, 1, "rel", ⟨some 10, 1, 1⟩⟩ 10 1 rfl rfl).1 (by decide),
   by decide,
   (C5_rel8_fixup ⟨specReserved, fun _ => none⟩ ["jr", "200"] 1 0 0 [] [0x18, 0x00]
     ⟨1, 1, "rel", ⟨some 200, 1, 1⟩⟩ 200 1 rfl rfl).2 (by decide)⟩

/-- Claim C8: a `DB` integer operand is fatal exactly when its value is
outside `[0, 255]`; a `DW` literal is fatal exactly when its integer value
is outside `[0, 65535]` or it is a string literal of other than 1–2
characters; in particular `db 255` and `dw 65535` succeed while `db 256`
and `dw 65536` fail. -/
theorem C8_db_dw_ranges :
    (∀ (n : Int) (tok : String) (line : Nat),
      encodeDwLiteral (.int n) tok line =
        if 0 ≤ n ∧ n ≤ 65535 then .ok [and255 n, and255 (shr8 n)]
        else .error ("DW value out of word range (0-65535) in line " ++ toString line
          ++ ": " ++ toString n))
    ∧ (∀ (s : String) (tok : String) (line : Nat),
      (∃ bs, encodeDwLiteral (.str s) tok line = .ok bs) ↔ (s.length = 1 ∨ s.length = 2))
    ∧ (∀ (t : String) (v : Int) (line : Nat), pyInt t = some v →
      (0 ≤ v ∧ v ≤ 255 → processDbPass1 line ["db", t] = .ok [v.toNat])
        ∧ (¬(0 ≤ v ∧ v ≤ 255) → processDbPass1 line ["db", t] =
            .error ("DB value out of byte range (0-255) in line " ++ toString line
              ++ ": " ++ toString v)))
    ∧ processDbPass1 1 ["db", "255"] = .ok [255]
    ∧ processDbPass1 1 ["db", "256"] = .error "DB value out of byte range (0-255) in line 1: 256"
    ∧ processDwPass1 1 ["dw", "65535"] = .ok [0xFF, 0xFF]
    ∧ processDwPass1 1 ["dw", "65536"] =
        .error "DW value out of word range (0-65535) in line 1: 65536" := by
  refine ⟨?_, ?_, ?_, rfl, rfl, rfl, rfl⟩
  · intro n tok line
    by_cases h : 0 ≤ n ∧ n ≤ 65535 <;> simp [encodeDwLiteral, h]
  · intro s tok line
    constructor
    · rintro ⟨bs, hbs⟩
      unfold encodeDwLiteral at hbs
      dsimp only at hbs
      rcases hd : s.data with _ | ⟨c0, _ | ⟨c1, _ | ⟨c2, t⟩⟩⟩ <;> rw [hd] at hbs
      · exact Except.noConfusion hbs
      · exact Or.inl (by simp [String.length, hd])
      · exact Or.inr (by simp [String.length, hd])
      · exact Except.noConfusion hbs
    · intro h
      rcases hd : s.data with _ | ⟨c0, _ | ⟨c1, _ | ⟨c2, t⟩⟩⟩
      · rcases h with h | h <;> simp [String.length, hd] at h
      · exact ⟨_, by unfold encodeDwLiteral; dsimp only; rw [hd]⟩
      · exact ⟨_, by unfold encodeDwLiteral; dsimp only; rw [hd]⟩
      · rcases h with h | h <;> simp [String.length, hd] at h
  · intro t v line h
    obtain ⟨-, -, -, hcm, hq1, hq2⟩ := pyInt_token_facts t v h
    constructor
    · intro hr
      simp only [processDbPass1, processDbPass1.go, List.drop]
      rw [if_neg hcm]
      simp only [hq1, hq2, Bool.or_self, Bool.false_eq_true, if_false]
      rw [h]
      dsimp only
      rw [if_neg (not_not_intro hr)]
      rfl
    · intro hr
      simp only [processDbPass1, processDbPass1.go, List.drop]
      rw [if_neg hcm]
      simp only [hq1, hq2, Bool.or_self, Bool.false_eq_true, if_false]
      rw [h]
      dsimp only
      rw [if_pos hr]

/-- Witness for C8's quantified byte-range clause: `db 77` emits `[77]`,
`db 300` is fatal. -/
theorem C8_db_dw_ranges_witness :
    pyInt "77" = some 77 ∧ pyInt "300" = some 300
    ∧ processDbPass1 3 ["db", "77"] = .ok [77]
    ∧ processDbPass1 3 ["db", "300"] =
        .error "DB value out of byte range (0-255) in line 3: 300" :=
  ⟨rfl, rfl,
   ((C8_db_dw_ranges.2.2.1 "77" 77 3 rfl).1 (by decide)),
   ((C8_db_dw_ranges.2.2.1 "300" 300 3 rfl).2 (by decide))⟩

/-- Modelled from the amended claim C4: a single `DB` operand token is
either a string literal whose escape-decoded character codes are appended,
or an integer-literal token whose value must lie in `[0, 255]`; any other
token — in particular a fragment of a multi-token expression — is fatal. -/
def dbOperandSpec (line : Nat) (t : String) : Except String (List Nat) :=
  if pyStartsWith t '"' || pyStartsWith t '\'' then
    match decodeStrLit t with
    | some s => .ok (s.data.map Char.toNat)
    | none => .error ("Invalid string literal in line " ++ toString line ++ ": " ++ t)
  else
    match pyInt t with
    | some v =>
      if 0 ≤ v ∧ v ≤ 255 then .ok [v.toNat]
      else .error ("DB value out of byte range (0-255) in line " ++ toString line
        ++ ": " ++ toString v)
    | none => .error ("Invalid operand for DB in line " ++ toString line ++ ": " ++ t)

/-- Modelled from the amended claim C4: `DB` emits the concatenation of the
byte forms of its comma-separated single-token operands. -/
def dbDirectiveSpec (line : Nat) (toks : List String) : Except String (List Nat) :=
  go ((toks.drop 1).filter (fun t => t ≠ ","))
where
  go : List String → Except String (List Nat)
  | [] => .ok []
  | t :: rest =>
    match dbOperandSpec line t with
    | .error e => .error e
    | .ok bs => (go rest).map (fun more => bs ++ more)

theorem dbGo_eq (line : Nat) (l : List String) :
    processDbPass1.go line l = dbDirectiveSpec.go line (l.filter (fun t => t ≠ ",")) := by
  induction l with
  | nil => rfl
  | cons t rest ih =>
    by_cases hc : t = ","
    · subst hc
      simp only [processDbPass1.go, List.filter, if_pos rfl]
      simpa using ih
    · simp only [processDbPass1.go, List.filter, if_neg hc]
      have hfilter : decide (t ≠ ",") = true := by simp [hc]
      rw [hfilter]
      simp only [dbDirectiveSpec.go, dbOperandSpec]
      by_cases hq : (pyStartsWith t '"' || pyStartsWith t '\'') = true
      · rw [if_pos hq, if_pos hq]
        cases decodeStrLit t with
        | none => rfl
        | some s => rw [ih]
      · rw [if_neg hq, if_neg hq]
        cases hv : pyInt t with
        | none => rfl
        | some v =>
          dsimp only
          by_cases hr : 0 ≤ v ∧ v ≤ 255
          · rw [if_neg (not_not_intro hr), if_pos hr, ih]
            rfl
          · rw [if_pos hr, if_neg hr]

/-- Claim C4 as amended: every comma-separated `DB` operand is a single
token — a string literal whose escape-decoded bytes are appended verbatim,
or an integer literal range-checked to `[0, 255]` — and a multi-token
numeric expression such as `1+2` is a fatal error rather than being
evaluated (`process_db_pass1` coincides with the amended per-operand
semantics on every token list). -/
theorem C4_db_single_token_operands :
    (∀ (line : Nat) (toks : List String),
      processDbPass1 line toks = dbDirectiveSpec line toks)
    ∧ processDbPass1 1 ["db", "1", "+", "2"] =
        .error "Invalid operand for DB in line 1: +" :=
  ⟨fun line toks => dbGo_eq line (toks.drop 1), rfl⟩

/-- Counterexample to claim C4 as stated: `1+2` is a well-formed numeric
expression that evaluates to `3 ∈ [0, 255]`, yet `db 1, +, 2` (the token
form of `db 1+2`) is a fatal error — the multi-token operand is not
evaluated to its byte. -/
theorem C4_counterexample :
    processDbPass1 1 ["db", "1", "+", "2"] = .error "Invalid operand for DB in line 1: +"
    ∧ evaluate ⟨["1", "+", "2"], some [], 1, specReserved, none⟩ = .ok (some 3)
    ∧ ((0 : Int) ≤ 3 ∧ (3 : Int) ≤ 255) :=
  ⟨rfl, rfl, by decide⟩

/-- Claim C3 as amended: division in the evaluator is Python floor division
(rounding toward negative infinity, `Int.fdiv`), not truncation toward
zero — for any integer-literal tokens `ta`, `tb` the expression `ta / tb`
evaluates to `⌊a / b⌋` when `b ≠ 0`, and division by zero is a fatal
error. -/
theorem C3_division_floors (res : List String) (lm : Option (List (String × Int)))
    (dl : Option (List String)) (line : Nat) (ta tb : String) (a b : Int)
    (ha : pyInt ta = some a) (hb : pyInt tb = some b) :
    (b ≠ 0 → evaluate ⟨[ta, "/", tb], lm, line, res, dl⟩ = .ok (some (a.fdiv b)))
    ∧ (b = 0 → evaluate ⟨[ta, "/", tb], lm, line, res, dl⟩ =
        .error ("Division by zero in expression on line " ++ toString line)) := by
  obtain ⟨ha1, ha2, ha3, -, ha4, ha5⟩ := pyInt_token_facts ta a ha
  obtain ⟨hb1, hb2, hb3, -, hb4, hb5⟩ := pyInt_token_facts tb b hb
  constructor
  · intro hbz
    simp [evaluate, evalFuel, parseAddSub, parseRun, parseAtom,
      ha, hb, ha1, ha2, ha3, ha4, ha5, hb1, hb2, hb3, hb4, hb5, hbz]
  · intro hbz
    subst hbz
    simp [evaluate, evalFuel, parseAddSub, parseRun, parseAtom,
      ha, hb, ha1, ha2, ha3, ha4, ha5, hb1, hb2, hb3, hb4, hb5]

/-- Witness for C3 as amended: `-7 / 2` (unary minus binds the factor, so
`(-7)/2`) evaluates to `-4 = fdiv (-7) 2`, and `7 / 0` is fatal. -/
theorem C3_division_floors_witness :
    pyInt "7" = some 7 ∧ pyInt "2" = some 2 ∧ pyInt "0" = some 0
    ∧ evaluate ⟨["7", "/", "2"], none, 1, [], none⟩ = .ok (some ((7 : Int).fdiv 2))
    ∧ evaluate ⟨["7", "/", "0"], none, 1, [], none⟩ =
        .error ("Division by zero in expression on line " ++ toString 1) :=
  ⟨rfl, rfl, rfl,
   (C3_division_floors [] none none 1 "7" "2" 7 2 rfl rfl).1 (by decide),
   (C3_division_floors [] none none 1 "7" "0" 7 0 rfl rfl).2 rfl⟩

/-- Counterexample to claim C3 as stated: the evaluator computes
`(-7)/2 = -4` (floor division), not `-3` (truncation toward zero). -/
theorem C3_counterexample :
    evaluate ⟨["-", "7", "/", "2"], some [], 1, specReserved, none⟩ = .ok (some (-4))
    ∧ ((-4 : Int) ≠ -3) :=
  ⟨rfl, by decide⟩

end PZ80
